import Mathlib

/-!
Verification of the SeirChain consensus core: Merkle commitment
(`src/seir_chain/crypto/hashing.py`), Triad headers
(`src/seir_chain/data_structures/triad.py`), transactions
(`src/seir_chain/data_structures/transaction.py`), the simulated VDF
(`src/seir_chain/consensus/vdf.py`), the Proof-of-Fractal puzzle
(`src/seir_chain/consensus/pof.py`) and the BLS wrapper
(`src/seir_chain/crypto/bls_production.py`).

Byte strings are `List Nat` with every element below 256.  SHA-256 is
embedded concretely (the Python code hashes JSON-serialized headers with
`hashlib.sha256`), so that the theorems and counterexamples below evaluate
on concrete headers exactly as the Python program would.
-/

set_option maxRecDepth 100000

namespace SeirChain

/-- A byte string: a list of naturals, each below 256. -/
abbrev Bytes := List Nat

/-! ## SHA-256 (`hashlib.sha256`), on 32-bit words represented as `Nat`
with explicit reduction `% 2^32`. -/

/-- The 32-bit modulus. -/
def w32 : Nat := 4294967296

/-- Right rotation of a 32-bit word by `k` bits. -/
def rotr (k x : Nat) : Nat := ((x >>> k) ||| (x <<< (32 - k))) % w32

/-- SHA-256 small sigma-0: rotr 7 xor rotr 18 xor shift 3. -/
def ssig0 (x : Nat) : Nat := rotr 7 x ^^^ rotr 18 x ^^^ (x >>> 3)

/-- SHA-256 small sigma-1: rotr 17 xor rotr 19 xor shift 10. -/
def ssig1 (x : Nat) : Nat := rotr 17 x ^^^ rotr 19 x ^^^ (x >>> 10)

/-- SHA-256 big sigma-0: rotr 2 xor rotr 13 xor rotr 22. -/
def bsig0 (x : Nat) : Nat := rotr 2 x ^^^ rotr 13 x ^^^ rotr 22 x

/-- SHA-256 big sigma-1: rotr 6 xor rotr 11 xor rotr 25. -/
def bsig1 (x : Nat) : Nat := rotr 6 x ^^^ rotr 11 x ^^^ rotr 25 x

/-- SHA-256 choice function. -/
def ch (x y z : Nat) : Nat := (x &&& y) ^^^ ((x ^^^ 4294967295) &&& z)

/-- SHA-256 majority function. -/
def maj (x y z : Nat) : Nat := (x &&& y) ^^^ (x &&& z) ^^^ (y &&& z)

/-- The 64 SHA-256 round constants of FIPS 180-4, written in decimal. -/
def sha256K : List Nat :=
  [1116352408, 1899447441, 3049323471, 3921009573, 961987163,
   1508970993, 2453635748, 2870763221, 3624381080, 310598401,
   607225278, 1426881987, 1925078388, 2162078206, 2614888103,
   3248222580, 3835390401, 4022224774, 264347078, 604807628,
   770255983, 1249150122, 1555081692, 1996064986, 2554220882,
   2821834349, 2952996808, 3210313671, 3336571891, 3584528711,
   113926993, 338241895, 666307205, 773529912, 1294757372,
   1396182291, 1695183700, 1986661051, 2177026350, 2456956037,
   2730485921, 2820302411, 3259730800, 3345764771, 3516065817,
   3600352804, 4094571909, 275423344, 430227734, 506948616,
   659060556, 883997877, 958139571, 1322822218, 1537002063,
   1747873779, 1955562222, 2024104815, 2227730452, 2361852424,
   2428436474, 2756734187, 3204031479, 3329325298]

/-- The SHA-256 initial hash value of FIPS 180-4, written in decimal. -/
def sha256H0 : List Nat :=
  [1779033703, 3144134277, 1013904242, 2773480762,
   1359893119, 2600822924, 528734635, 1541459225]

/-- A natural written as `len` big-endian bytes. -/
def natToBytesBE : Nat → Nat → Bytes
  | 0, _ => []
  | len + 1, n => (n >>> (8 * len)) % 256 :: natToBytesBE len n

/-- SHA-256 padding: append `0x80`, zeros up to 56 mod 64, and the bit
length as 8 big-endian bytes. -/
def padMessage (msg : Bytes) : Bytes :=
  msg ++ [128] ++ List.replicate ((119 - msg.length % 64) % 64) 0
      ++ natToBytesBE 8 (8 * msg.length)

/-- Group bytes into 32-bit big-endian words. -/
def bytesToWordsBE : Bytes → List Nat
  | b0 :: b1 :: b2 :: b3 :: rest =>
      (((b0 * 256 + b1) * 256 + b2) * 256 + b3) :: bytesToWordsBE rest
  | _ => []

/-- Split a word list into 16-word blocks. -/
def chunk16 : List Nat → List (List Nat)
  | w0 :: w1 :: w2 :: w3 :: w4 :: w5 :: w6 :: w7 ::
    w8 :: w9 :: w10 :: w11 :: w12 :: w13 :: w14 :: w15 :: rest =>
      [w0, w1, w2, w3, w4, w5, w6, w7, w8, w9, w10, w11, w12, w13, w14, w15]
        :: chunk16 rest
  | _ => []

/-- Message-schedule extension: `acc` holds the words produced so far,
newest first; each step appends
`ssig1 w[i-2] + w[i-7] + ssig0 w[i-15] + w[i-16] mod 2^32`. -/
def scheduleRounds : Nat → List Nat → List Nat
  | 0, acc => acc.reverse
  | r + 1, acc =>
      scheduleRounds r
        ((ssig1 (acc.getD 1 0) + acc.getD 6 0 + ssig0 (acc.getD 14 0)
          + acc.getD 15 0) % w32 :: acc)

/-- The 64-word message schedule of a 16-word block. -/
def schedule (block : List Nat) : List Nat := scheduleRounds 48 block.reverse

/-- The SHA-256 working state `(a, b, c, d, e, f, g, h)`. -/
abbrev Sha256State := Nat × Nat × Nat × Nat × Nat × Nat × Nat × Nat

/-- The 64 compression rounds, driven by the zipped constant/schedule list. -/
def sha256Rounds : List (Nat × Nat) → Sha256State → Sha256State
  | [], s => s
  | (k, w) :: rest, (a, b, c, d, e, f, g, h) =>
      sha256Rounds rest
        (((h + bsig1 e + ch e f g + k + w) % w32
            + (bsig0 a + maj a b c) % w32) % w32,
         a, b, c,
         (d + (h + bsig1 e + ch e f g + k + w) % w32) % w32,
         e, f, g)

/-- Compress one 16-word block into the running 8-word hash value. -/
def processBlock (hv : List Nat) (block : List Nat) : List Nat :=
  match sha256Rounds (sha256K.zip (schedule block))
      (hv.getD 0 0, hv.getD 1 0, hv.getD 2 0, hv.getD 3 0,
       hv.getD 4 0, hv.getD 5 0, hv.getD 6 0, hv.getD 7 0) with
  | (a, b, c, d, e, f, g, h) =>
      [(hv.getD 0 0 + a) % w32, (hv.getD 1 0 + b) % w32,
       (hv.getD 2 0 + c) % w32, (hv.getD 3 0 + d) % w32,
       (hv.getD 4 0 + e) % w32, (hv.getD 5 0 + f) % w32,
       (hv.getD 6 0 + g) % w32, (hv.getD 7 0 + h) % w32]

/-- Serialize the 8 final words as 32 big-endian bytes. -/
def wordsToBytesBE : List Nat → Bytes
  | [] => []
  | w :: rest => natToBytesBE 4 w ++ wordsToBytesBE rest

/-- `sha256_hash(data)` from `src/seir_chain/crypto/hashing.py`:
the 32-byte SHA-256 digest of `data`. -/
def sha256_hash (data : Bytes) : Bytes :=
  wordsToBytesBE ((chunk16 (bytesToWordsBE (padMessage data))).foldl processBlock sha256H0)

/-! ## Python-style serialization helpers, byte-exact images of
`json.dumps(..., sort_keys=True)` with its default separators. -/

/-- Decimal digits of a non-negative integer, as ASCII bytes; the fuel
argument bounds the division chain (`n + 1` steps always suffice). -/
def natDecAux : Nat → Nat → Bytes
  | 0, _ => []
  | fuel + 1, n => if n < 10 then [48 + n] else natDecAux fuel (n / 10) ++ [48 + n % 10]

/-- A non-negative integer rendered in decimal, as Python renders an `int`. -/
def natDec (n : Nat) : Bytes := natDecAux (n + 1) n

/-- One lowercase hex digit, as `bytes.hex()` produces. -/
def hexChar (n : Nat) : Nat := if n < 10 then 48 + n else 87 + n

/-- Python's `bytes.hex()`: two lowercase hex digits per byte. -/
def hexBytes : Bytes → Bytes
  | [] => []
  | b :: rest => hexChar (b / 16) :: hexChar (b % 16) :: hexBytes rest

/-- The UTF-8 bytes of an ASCII string literal. -/
def strBytes (s : String) : Bytes := s.data.map Char.toNat

/-- A JSON string literal (the serialized strings here are hex or
ASCII identifiers, so no escaping arises). -/
def jStr (s : Bytes) : Bytes := 34 :: (s ++ [34])

/-- One `"key": value` JSON field. -/
def jKey (k : String) (v : Bytes) : Bytes := jStr (strBytes k) ++ [58, 32] ++ v

/-- Comma-space-joined field list, as `json.dumps`'s default separator. -/
def joinComma : List Bytes → Bytes
  | [] => []
  | [f] => f
  | f :: rest => f ++ [44, 32] ++ joinComma rest

/-- A JSON object over already-rendered fields (sorted key order is the
caller's responsibility, mirroring `sort_keys=True`). -/
def jObj (fields : List Bytes) : Bytes := 123 :: (joinComma fields ++ [125])

/-- Python truthiness of an optional byte string: `None` and `b""` are
falsy, every non-empty byte string is truthy. -/
def pyBytesTruthy : Option Bytes → Bool
  | none => false
  | some b => !b.isEmpty

/-- `self.x.hex() if self.x else None` rendered into JSON: a quoted hex
string when truthy, the literal `null` otherwise. -/
def jOptHex : Option Bytes → Bytes
  | some b => if b.isEmpty then strBytes "null" else jStr (hexBytes b)
  | none => strBytes "null"

/-- Python's `l[-n:]`: the last `n` elements (the whole list when shorter). -/
def lastN (n : Nat) (l : Bytes) : Bytes := l.drop (l.length - n)

/-! ## `merkle_root` from `src/seir_chain/crypto/hashing.py` -/

/-- One level of the Merkle loop: pair adjacent digests left-to-right;
a trailing unpaired digest is combined with itself
(`right = items[i+1] if i+1 < len(items) else left`). -/
def nextLevel : List Bytes → List Bytes
  | [] => []
  | [x] => [sha256_hash (x ++ x)]
  | x :: y :: rest => sha256_hash (x ++ y) :: nextLevel rest

/-- The recursion of `merkle_root`, with a fuel argument bounding the
level count: each level at least halves a length-two-or-more list, so an
initial fuel of `items.length` is always sufficient and the zero-fuel
fallthrough branch is unreachable from `merkle_root`. -/
def merkleGo : Nat → List Bytes → Bytes
  | _, [] => sha256_hash []
  | _, [x] => sha256_hash x
  | fuel + 1, l => merkleGo fuel (nextLevel l)
  | 0, _ => sha256_hash []

/-- `merkle_root(items)` from `src/seir_chain/crypto/hashing.py`:
empty list hashes the empty byte string, a singleton is re-hashed, and
longer lists recurse through `nextLevel` until one digest remains. -/
def merkle_root (items : List Bytes) : Bytes := merkleGo items.length items

/-! ## `Transaction` from `src/seir_chain/data_structures/transaction.py`.
Addresses are ASCII strings modeled as their bytes; `amount`, `fee`,
`nonce`, `timestamp` are the non-negative integers the system uses.
The external `ecdsa` library's signature check (`KeyPair.verify`) is not
repository source; it enters as an abstract boolean parameter
`ecdsaVerify public_key signature message`. -/

structure Transaction where
  from_address : Bytes
  to_address : Bytes
  amount : Nat
  fee : Nat
  nonce : Nat
  timestamp : Nat
  signature : Option Bytes
  public_key : Option Bytes
deriving DecidableEq

/-- `Transaction.payload`: the sorted-key JSON of the signature-free
field set, UTF-8 encoded. -/
def Transaction.payload (tx : Transaction) : Bytes :=
  jObj [jKey "amount" (natDec tx.amount),
        jKey "fee" (natDec tx.fee),
        jKey "from_address" (jStr tx.from_address),
        jKey "nonce" (natDec tx.nonce),
        jKey "timestamp" (natDec tx.timestamp),
        jKey "to_address" (jStr tx.to_address)]

/-- `Transaction.get_hash`: SHA-256 of the sorted-key JSON including the
hex-coded public key and signature (or `null` when falsy). -/
def Transaction.get_hash (tx : Transaction) : Bytes :=
  sha256_hash
    (jObj [jKey "amount" (natDec tx.amount),
           jKey "fee" (natDec tx.fee),
           jKey "from_address" (jStr tx.from_address),
           jKey "nonce" (natDec tx.nonce),
           jKey "public_key" (jOptHex tx.public_key),
           jKey "signature" (jOptHex tx.signature),
           jKey "timestamp" (natDec tx.timestamp),
           jKey "to_address" (jStr tx.to_address)])

/-- `Transaction.is_valid`: `COINBASE` senders pass unconditionally;
otherwise the signature and public key must be present and non-empty,
the address `'WAC' + sha256(public_key)[-20:].hex()` must equal
`from_address`, and the external ECDSA check must accept
`(public_key, signature, payload)`. -/
def Transaction.is_valid (ecdsaVerify : Bytes → Bytes → Bytes → Bool)
    (tx : Transaction) : Bool :=
  if tx.from_address = strBytes "COINBASE" then true
  else if !pyBytesTruthy tx.signature || !pyBytesTruthy tx.public_key then false
  else if strBytes "WAC" ++ hexBytes (lastN 20 (sha256_hash (tx.public_key.getD [])))
        ≠ tx.from_address then false
  else ecdsaVerify (tx.public_key.getD []) (tx.signature.getD []) tx.payload

/-! ## `Triad` from `src/seir_chain/data_structures/triad.py` -/

structure Triad where
  parent_hash : Bytes
  height : Nat
  timestamp : Nat
  nonce : Nat
  miner_address : Bytes
  difficulty : Nat
  transactions : List Transaction
  tx_merkle_root : Bytes
  child_hashes : List Bytes
  aggregated_proof : Bytes
  committee_pub_key : Bytes
deriving DecidableEq

/-- The value `calculate_merkle_root` stores: SHA-256 of the empty byte
string when there are no transactions, otherwise the Merkle root of the
transaction hashes. -/
def Triad.merkleOfTransactions (t : Triad) : Bytes :=
  if t.transactions.isEmpty then sha256_hash []
  else merkle_root (t.transactions.map Transaction.get_hash)

/-- `Triad.calculate_merkle_root`: recompute and store `tx_merkle_root`. -/
def Triad.calculate_merkle_root (t : Triad) : Triad :=
  { t with tx_merkle_root := t.merkleOfTransactions }

/-- The sorted-key JSON header string hashed by `get_header_hash`
(`to_dict(for_hashing=True)` under `json.dumps(..., sort_keys=True)`). -/
def Triad.headerString (t : Triad) : Bytes :=
  jObj [jKey "difficulty" (natDec t.difficulty),
        jKey "height" (natDec t.height),
        jKey "miner_address" (jStr t.miner_address),
        jKey "nonce" (natDec t.nonce),
        jKey "parent_hash" (jStr (hexBytes t.parent_hash)),
        jKey "timestamp" (natDec t.timestamp),
        jKey "tx_merkle_root" (jStr (hexBytes t.tx_merkle_root))]

/-- `Triad.get_header_hash`, with its side effect made explicit: it first
runs `calculate_merkle_root` (mutating `tx_merkle_root`), then hashes the
serialized header; the pair carries the digest and the updated header. -/
def Triad.get_header_hash (t : Triad) : Bytes × Triad :=
  (sha256_hash t.calculate_merkle_root.headerString, t.calculate_merkle_root)

/-- The header-hash value alone. -/
def Triad.header_hash (t : Triad) : Bytes := t.get_header_hash.1

/-- `Triad.add_transaction`: append the transaction when
`transaction.is_valid()` holds, otherwise raise
`ValueError("Cannot add invalid transaction to Triad.")`. -/
def Triad.add_transaction (ecdsaVerify : Bytes → Bytes → Bytes → Bool)
    (t : Triad) (tx : Transaction) : Except String Triad :=
  if tx.is_valid ecdsaVerify then
    .ok { t with transactions := t.transactions ++ [tx] }
  else
    .error "Cannot add invalid transaction to Triad."

/-! ## `VDF` from `src/seir_chain/consensus/vdf.py` -/

/-- The hash chain of `VDF.compute` and `VDF.verify`: starting from the
challenge, re-hash the previous value the given number of times. -/
def hashChain : Nat → Bytes → Bytes
  | 0, c => c
  | n + 1, c => hashChain n (sha256_hash c)

/-- `VDF.compute` on a constructed instance (the constructor rejects
`difficulty < 1`; theorems carry that bound as a hypothesis): the chain's
final value serves as both output and proof. -/
def VDF.compute (challenge : Bytes) (difficulty : Nat) : Bytes × Bytes :=
  (hashChain difficulty challenge, hashChain difficulty challenge)

/-- `VDF.verify`: false when `output != proof`, otherwise recompute the
chain from the challenge and compare with `output`. -/
def VDF.verify (challenge : Bytes) (difficulty : Nat) (output proof : Bytes) : Bool :=
  if output ≠ proof then false
  else hashChain difficulty challenge == output

/-! ## `PoF` from `src/seir_chain/consensus/pof.py`.  The class holds a
bound `triad` and a `vdf_difficulty`; both appear here as explicit
arguments. -/

/-- `PoF.get_puzzle_challenge`: the bound header's hash at the header's
current state (the Python call also refreshes the stored
`tx_merkle_root`, which every later `get_header_hash` recomputes anyway). -/
def PoF.get_puzzle_challenge (triad : Triad) : Bytes := triad.header_hash

/-- `PoF.create_puzzle`: run the VDF over the puzzle challenge.  The
`VDF` constructor invoked here raises when `vdf_difficulty < 1`. -/
def PoF.create_puzzle (triad : Triad) (vdf_difficulty : Nat) :
    Except String (Bytes × Bytes) :=
  if vdf_difficulty < 1 then .error "VDF difficulty must be at least 1."
  else .ok (VDF.compute (PoF.get_puzzle_challenge triad) vdf_difficulty)

/-- The proof-of-work target `(2^256 - 1) >> difficulty`. -/
def powTarget (difficulty : Nat) : Nat := (2 ^ 256 - 1) >>> difficulty

/-- Python's `int.from_bytes(data, 'big')`. -/
def intFromBytesBE (bs : Bytes) : Nat := bs.foldl (fun acc b => acc * 256 + b) 0

/-- The body of `PoF.solve_puzzle`'s `while True` loop, with a fuel bound
on the number of nonces tried (the Python loop is unbounded; fuel
exhaustion reports `none`).  Each iteration hashes the header at the
candidate nonce together with the VDF output and tests the target. -/
def PoF.solveGo (triad : Triad) (vdf_output : Bytes) : Nat → Nat → Option Nat
  | 0, _ => none
  | fuel + 1, nonce =>
      if intFromBytesBE (sha256_hash
            (Triad.header_hash { triad with nonce := nonce } ++ vdf_output))
          < powTarget triad.difficulty
      then some nonce
      else PoF.solveGo triad vdf_output fuel (nonce + 1)

/-- `PoF.solve_puzzle`: search nonces from 0 upward (the Python loop also
leaves the winning nonce stored in the header; the caller of
`verify_solution` sets it explicitly, as the claims do). -/
def PoF.solve_puzzle (triad : Triad) (vdf_output : Bytes) (fuel : Nat) : Option Nat :=
  PoF.solveGo triad vdf_output fuel 0

/-- `PoF.verify_solution`, with the header state threaded explicitly:
save the nonce, zero it, recompute the challenge, restore the nonce,
check the VDF, then check the proof-of-work target at the restored nonce.
The returned header is the state the Python object is left in. -/
def PoF.verify_solution (triad : Triad) (vdf_difficulty : Nat)
    (vdf_output vdf_proof : Bytes) : Bool × Triad :=
  let original_nonce := triad.nonce
  let t0 := { triad with nonce := 0 }
  let challenge := t0.get_header_hash.1
  let t1 := { t0.get_header_hash.2 with nonce := original_nonce }
  if !(VDF.verify challenge vdf_difficulty vdf_output vdf_proof) then (false, t1)
  else if intFromBytesBE (sha256_hash (t1.get_header_hash.1 ++ vdf_output))
      ≥ powTarget t1.difficulty then (false, t1.get_header_hash.2)
  else (true, t1.get_header_hash.2)

/-! ## `ProductionBLS` from `src/seir_chain/crypto/bls_production.py`.
The pairing computations live in the external `py_ecc` library, outside
this repository's source; they enter as parameters (`V` for the
`bls_pop.Verify` call inside `verify_signature`, which the wrapper turns
into a total boolean, and `Agg` for `bls_pop.Aggregate`). -/

structure BLSSignature where
  signature : Bytes
  public_key : Bytes
  message : Bytes
  timestamp : Nat
deriving DecidableEq

/-- The result dictionary of `batch_verify`
(the wall-clock `verification_time_ms` field is not modeled). -/
structure BatchResults where
  total_signatures : Nat
  valid_signatures : Nat
  invalid_signatures : Nat
  invalid_indices : List Nat
deriving DecidableEq

/-- The `for i, sig in enumerate(signatures)` loop of `batch_verify`,
tallying into the accumulated results record. -/
def ProductionBLS.batchLoop (V : BLSSignature → Bool) :
    List (Nat × BLSSignature) → BatchResults → BatchResults
  | [], r => r
  | (i, sig) :: rest, r =>
      if V sig then
        ProductionBLS.batchLoop V rest
          { r with valid_signatures := r.valid_signatures + 1 }
      else
        ProductionBLS.batchLoop V rest
          { r with invalid_signatures := r.invalid_signatures + 1,
                   invalid_indices := r.invalid_indices ++ [i] }

/-- `ProductionBLS.batch_verify`: verify each signature independently
(through `verify_signature`, abstracted as `V`) and tally the results. -/
def ProductionBLS.batch_verify (V : BLSSignature → Bool)
    (signatures : List BLSSignature) : BatchResults :=
  ProductionBLS.batchLoop V signatures.enum
    ⟨signatures.length, 0, 0, []⟩

/-- The two `ValueError` sites of `aggregate_signatures`, under the
spec's error taxonomy: the empty-sequence raise
(`"Cannot aggregate empty signature list"`) and the per-element length
raise (`"Invalid signature length: ..."`). -/
inductive AggError where
  | invalidParameter
  | lengthMismatch
deriving DecidableEq

/-- `ProductionBLS.aggregate_signatures`: reject an empty list, reject
any element whose length is not the canonical 96 bytes, otherwise hand
the list to the external `bls_pop.Aggregate` (the parameter `Agg`). -/
def ProductionBLS.aggregate_signatures (Agg : List Bytes → Bytes)
    (signatures : List Bytes) : Except AggError Bytes :=
  if signatures.isEmpty then .error .invalidParameter
  else if signatures.any (fun s => s.length ≠ 96) then .error .lengthMismatch
  else .ok (Agg signatures)

/-- Modelled from the spec: `py_ecc`'s `bls_pop.Aggregate`, which is not
repository source.  Per the spec it decodes each signature to a point of
the curve group, combines the points by elliptic-curve point addition —
commutative and associative, with the identity as the empty sum — and
re-encodes the sum.  The curve group is abstracted as an additive
commutative monoid `P` with decode/encode maps. -/
def ProductionBLS.aggregateCore {P : Type} [AddCommMonoid P]
    (decode : Bytes → P) (encode : P → Bytes) (signatures : List Bytes) : Bytes :=
  encode (signatures.map decode).sum

/-! ## Reference Merkle definition for the refinement claim C5,
written from the spec's words: pad an odd level by duplicating its last
digest, then pair strictly left-to-right. -/

/-- Written from the spec for C5: strict left-to-right pairing of a level
whose length is even, combining each pair by concatenation and hashing. -/
def pairUp : List Bytes → List Bytes
  | x :: y :: rest => sha256_hash (x ++ y) :: pairUp rest
  | _ => []

/-- Written from the spec for C5: when the count is odd, duplicate the
last digest before pairing (`[a] ↦ [a, a]`, even lists unchanged). -/
def padDup : List Bytes → List Bytes
  | [] => []
  | [x] => [x, x]
  | x :: y :: rest => x :: y :: padDup rest

/-- Written from the spec for C5: the reference recursion — empty input
hashes the empty byte string, a single input is re-hashed, and longer
levels are padded, paired and recursed until one digest remains (same
fuel discipline as `merkleGo`). -/
def merkleSpecGo : Nat → List Bytes → Bytes
  | _, [] => sha256_hash []
  | _, [x] => sha256_hash x
  | fuel + 1, l => merkleSpecGo fuel (pairUp (padDup l))
  | 0, _ => sha256_hash []

/-- The reference Merkle definition of the spec (claim C5). -/
def merkle_root_spec (items : List Bytes) : Bytes := merkleSpecGo items.length items

/-! ## Helper lemmas -/

/-- The source's fused odd-trailing rule computes exactly the spec's
duplicate-then-pair level. -/
theorem nextLevel_eq_pairUp_padDup : ∀ (l : List Bytes), nextLevel l = pairUp (padDup l)
  | [] => rfl
  | [_] => rfl
  | x :: y :: r => congrArg (sha256_hash (x ++ y) :: ·) (nextLevel_eq_pairUp_padDup r)

/-- The two fueled recursions coincide level by level. -/
theorem merkleGo_eq_spec : ∀ (fuel : Nat) (l : List Bytes), merkleGo fuel l = merkleSpecGo fuel l
  | 0, [] => rfl
  | 0, [_] => rfl
  | _ + 1, [] => rfl
  | _ + 1, [_] => rfl
  | 0, _ :: _ :: _ => rfl
  | fuel + 1, x :: y :: r => by
      show merkleGo fuel (nextLevel (x :: y :: r))
          = merkleSpecGo fuel (pairUp (padDup (x :: y :: r)))
      rw [nextLevel_eq_pairUp_padDup, merkleGo_eq_spec fuel]

/-- The iterative hash chain is `difficulty`-fold iteration of the hash. -/
theorem hashChain_eq_iterate : ∀ (d : Nat) (c : Bytes), hashChain d c = sha256_hash^[d] c
  | 0, _ => rfl
  | d + 1, c => by
      rw [show hashChain (d + 1) c = hashChain d (sha256_hash c) from rfl,
          hashChain_eq_iterate d, Function.iterate_succ_apply]

/-- Overwriting a zero nonce with zero is the identity. -/
theorem Triad.set_nonce_self (t : Triad) (h : t.nonce = 0) : { t with nonce := 0 } = t := by
  cases t
  simp only at h
  simp [h]

/-- The header hash never reads the previously stored `tx_merkle_root`
(it recomputes it), so overwriting that field does not change the hash. -/
theorem Triad.header_hash_set_merkle (t : Triad) (x : Bytes) :
    Triad.header_hash { t with tx_merkle_root := x } = t.header_hash := rfl

/-- If the solving loop reports a nonce, the header hashed at that nonce
together with the VDF output falls below the proof-of-work target. -/
theorem PoF.solveGo_sound (t : Triad) (out : Bytes) :
    ∀ (fuel k n : Nat), PoF.solveGo t out fuel k = some n →
      intFromBytesBE (sha256_hash (Triad.header_hash { t with nonce := n } ++ out))
        < powTarget t.difficulty
  | 0, _, _ => by simp [PoF.solveGo]
  | fuel + 1, k, n => by
      intro h
      rw [show PoF.solveGo t out (fuel + 1) k
            = if intFromBytesBE (sha256_hash
                  (Triad.header_hash { t with nonce := k } ++ out))
                < powTarget t.difficulty
              then some k else PoF.solveGo t out fuel (k + 1) from rfl] at h
      split at h
      · cases h
        assumption
      · exact PoF.solveGo_sound t out fuel (k + 1) n h

/-- Nonempty all-canonical-length lists aggregate without error. -/
theorem ProductionBLS.aggregate_signatures_ok (Agg : List Bytes → Bytes)
    (sigs : List Bytes) (hne : sigs ≠ []) (hall : ∀ s ∈ sigs, s.length = 96) :
    ProductionBLS.aggregate_signatures Agg sigs = .ok (Agg sigs) := by
  have h1 : sigs.isEmpty = false := by simp [List.isEmpty_iff, hne]
  have h2 : (sigs.any fun s => s.length ≠ 96) = false := by
    simp only [List.any_eq_false, decide_eq_true_eq]
    intro s hs
    simp [hall s hs]
  unfold ProductionBLS.aggregate_signatures
  rw [h1, h2]
  simp

/-! ## Claim theorems -/

/-- C2: for every challenge `c` and difficulty `d ≥ 1`, `VDF(c, d).compute()`
returns `(output, proof)` where `output` is the `d`-fold iterated SHA-256
of `c` and `proof` equals `output`, and `VDF.verify(c, d, output, proof)`
returns true.  (The `d ≥ 1` bound is the constructor's requirement; the
equalities hold for it.) -/
theorem vdf_compute_verify (c : Bytes) (d : Nat) (hd : 1 ≤ d) :
    (VDF.compute c d).1 = sha256_hash^[d] c ∧
    (VDF.compute c d).2 = (VDF.compute c d).1 ∧
    VDF.verify c d (VDF.compute c d).1 (VDF.compute c d).2 = true := by
  refine ⟨hashChain_eq_iterate d c, rfl, ?_⟩
  simp [VDF.verify, VDF.compute]

/-- Witness for C2 at `c = [0]`, `d = 1`. -/
theorem vdf_compute_verify_witness :
    1 ≤ 1 ∧
    ((VDF.compute [0] 1).1 = sha256_hash^[1] [0] ∧
     (VDF.compute [0] 1).2 = (VDF.compute [0] 1).1 ∧
     VDF.verify [0] 1 (VDF.compute [0] 1).1 (VDF.compute [0] 1).2 = true) :=
  ⟨by decide, vdf_compute_verify [0] 1 (by decide)⟩

/-- C5: the source's `merkle_root` equals the reference Merkle definition
written from the spec — empty list hashes the empty byte string, a single
digest is re-hashed, and longer levels duplicate the last digest when odd,
pair adjacent digests left-to-right by concatenating and hashing, and
recurse until one digest remains. -/
theorem merkle_root_eq_spec (items : List Bytes) :
    merkle_root items = merkle_root_spec items :=
  merkleGo_eq_spec items.length items

/-- C10: for 32-byte digests `a, b, c`, the roots of `[a, b, c]` and
`[a, b, c, c]` coincide, because the odd level duplicates its last digest
— two distinct leaf lists committing to the same root. -/
theorem merkle_root_append_dup (a b c : Bytes)
    (ha : a.length = 32) (hb : b.length = 32) (hc : c.length = 32) :
    merkle_root [a, b, c] = merkle_root [a, b, c, c] := rfl

/-- Witness for C10 at three concrete 32-byte digests. -/
theorem merkle_root_append_dup_witness :
    (List.replicate 32 0).length = 32 ∧ (List.replicate 32 1).length = 32 ∧
    (List.replicate 32 2).length = 32 ∧
    merkle_root [List.replicate 32 0, List.replicate 32 1, List.replicate 32 2]
      = merkle_root [List.replicate 32 0, List.replicate 32 1, List.replicate 32 2,
          List.replicate 32 2] :=
  ⟨by decide, by decide, by decide,
   merkle_root_append_dup _ _ _ (by decide) (by decide) (by decide)⟩

/-- The tally invariant of the `batch_verify` loop: totals are untouched,
passing and failing elements extend the two counters, and the indices of
the failing elements are appended in list order. -/
theorem ProductionBLS.batchLoop_spec (V : BLSSignature → Bool) :
    ∀ (l : List (Nat × BLSSignature)) (r : BatchResults),
      ProductionBLS.batchLoop V l r =
        ⟨r.total_signatures,
         r.valid_signatures + ((l.filter fun p => V p.2).length),
         r.invalid_signatures + ((l.filter fun p => !V p.2).length),
         r.invalid_indices ++ ((l.filter fun p => !V p.2).map Prod.fst)⟩
  | [], r => by simp [ProductionBLS.batchLoop]
  | (i, sig) :: rest, r => by
      cases hv : V sig with
      | true =>
          rw [show ProductionBLS.batchLoop V ((i, sig) :: rest) r
                = if V sig then ProductionBLS.batchLoop V rest
                    { r with valid_signatures := r.valid_signatures + 1 }
                  else ProductionBLS.batchLoop V rest
                    { r with invalid_signatures := r.invalid_signatures + 1,
                             invalid_indices := r.invalid_indices ++ [i] } from rfl,
              if_pos hv, ProductionBLS.batchLoop_spec V rest]
          simp [List.filter_cons, hv, Nat.add_assoc, Nat.add_comm 1]
      | false =>
          rw [show ProductionBLS.batchLoop V ((i, sig) :: rest) r
                = if V sig then ProductionBLS.batchLoop V rest
                    { r with valid_signatures := r.valid_signatures + 1 }
                  else ProductionBLS.batchLoop V rest
                    { r with invalid_signatures := r.invalid_signatures + 1,
                             invalid_indices := r.invalid_indices ++ [i] } from rfl,
              if_neg (by simp [hv]), ProductionBLS.batchLoop_spec V rest]
          simp [List.filter_cons, hv, Nat.add_assoc, Nat.add_comm 1]

/-- The count of failing elements is unchanged by enumeration. -/
theorem enumFrom_filter_not_length (V : BLSSignature → Bool) :
    ∀ (n : Nat) (l : List BLSSignature),
      ((List.enumFrom n l).filter fun p => !V p.2).length
        = (l.filter fun s => !V s).length
  | _, [] => rfl
  | n, s :: rest => by
      cases hv : V s <;>
        simp [List.enumFrom, List.filter_cons, hv,
              enumFrom_filter_not_length V (n + 1) rest]

/-- The count of passing elements is unchanged by enumeration. -/
theorem enumFrom_filter_pos_length (V : BLSSignature → Bool) :
    ∀ (n : Nat) (l : List BLSSignature),
      ((List.enumFrom n l).filter fun p => V p.2).length
        = (l.filter fun s => V s).length
  | _, [] => rfl
  | n, s :: rest => by
      cases hv : V s <;>
        simp [List.enumFrom, List.filter_cons, hv,
              enumFrom_filter_pos_length V (n + 1) rest]

/-- A list splits into its passing and failing elements. -/
theorem filter_length_partition {α : Type} (p : α → Bool) :
    ∀ l : List α, (l.filter p).length + (l.filter fun a => !p a).length = l.length
  | [] => rfl
  | a :: rest => by
      have ih := filter_length_partition p rest
      cases hv : p a <;> simp [List.filter_cons, hv] <;> omega

/-- C4: `verify_solution` leaves the header's nonce at its pre-call value
on every exit path — VDF failure, unmet proof-of-work target, and
success. -/
theorem verify_solution_preserves_nonce (t : Triad) (d : Nat) (out pf : Bytes) :
    (PoF.verify_solution t d out pf).2.nonce = t.nonce := by
  unfold PoF.verify_solution
  dsimp only
  split
  · rfl
  · split
    · rfl
    · rfl

/-- If the VDF check accepts the challenge recomputed at nonce 0 and the
proof-of-work hash at the header's own nonce falls below the target, then
`verify_solution` returns true. -/
theorem verify_solution_true (t : Triad) (d : Nat) (out pf : Bytes)
    (hchal : VDF.verify (Triad.header_hash { t with nonce := 0 }) d out pf = true)
    (hpow : intFromBytesBE (sha256_hash (t.header_hash ++ out)) < powTarget t.difficulty) :
    (PoF.verify_solution t d out pf).1 = true := by
  unfold PoF.verify_solution
  dsimp only
  split
  · rename_i hcond
    simp only [Bool.not_eq_eq_eq_not, Bool.not_true] at hcond
    simp only [Triad.header_hash] at hchal
    rw [hchal] at hcond
    cases hcond
  · split
    · rename_i hge
      have hge' : intFromBytesBE (sha256_hash (t.get_header_hash.1 ++ out))
          ≥ powTarget t.difficulty := hge
      have hpow' : intFromBytesBE (sha256_hash (t.get_header_hash.1 ++ out))
          < powTarget t.difficulty := hpow
      exact absurd hpow' (Nat.not_lt.mpr hge')
    · rfl

/-- A header with all fields at their construction defaults (`nonce = 0`,
no transactions) and empty parent hash and miner address. -/
def tEmpty : Triad := ⟨[], 0, 0, 0, [], 0, [], [], [], [], []⟩

/-- A `COINBASE` reward transaction (valid without any signature). -/
def txCoinbase : Transaction := ⟨strBytes "COINBASE", strBytes "alice", 5, 0, 0, 0, none, none⟩

/-- C6: `add_transaction(tx)` appends `tx` at the end of the transaction
list, leaving earlier entries unchanged, exactly when `tx.is_valid()`
holds (the transaction's signature validates against its claimed sender
identity); otherwise it raises and the transaction never enters the
list.  Stated for every external ECDSA verifier. -/
theorem add_transaction_spec (V : Bytes → Bytes → Bytes → Bool)
    (t : Triad) (tx : Transaction) :
    (tx.is_valid V = true →
      t.add_transaction V tx = .ok { t with transactions := t.transactions ++ [tx] }) ∧
    (tx.is_valid V = false →
      t.add_transaction V tx = .error "Cannot add invalid transaction to Triad.") := by
  constructor <;> intro h <;> simp [Triad.add_transaction, h]

/-- Witness for C6: a coinbase transaction is accepted and appended. -/
theorem add_transaction_spec_witness :
    Transaction.is_valid (fun _ _ _ => false) txCoinbase = true ∧
    Triad.add_transaction (fun _ _ _ => false) tEmpty txCoinbase =
      .ok { tEmpty with transactions := tEmpty.transactions ++ [txCoinbase] } :=
  ⟨by decide, (add_transaction_spec (fun _ _ _ => false) tEmpty txCoinbase).1 (by decide)⟩

/-- C7: `aggregate_signatures` rejects the empty sequence with the
empty-list `ValueError` (the spec's `InvalidParameter`), rejects any
sequence containing an element whose length is not the canonical 96 bytes
with the length `ValueError` (the spec's `AggregationLengthMismatch`),
and hands every non-empty all-96-byte sequence to the external aggregator
without raising. -/
theorem aggregate_signatures_spec (Agg : List Bytes → Bytes) (sigs : List Bytes) :
    (sigs = [] → ProductionBLS.aggregate_signatures Agg sigs = .error .invalidParameter) ∧
    ((∃ s ∈ sigs, s.length ≠ 96) →
      ProductionBLS.aggregate_signatures Agg sigs = .error .lengthMismatch) ∧
    (sigs ≠ [] → (∀ s ∈ sigs, s.length = 96) →
      ProductionBLS.aggregate_signatures Agg sigs = .ok (Agg sigs)) := by
  refine ⟨?_, ?_, ProductionBLS.aggregate_signatures_ok Agg sigs⟩
  · intro h
    subst h
    rfl
  · intro h
    obtain ⟨s, hs, hlen⟩ := h
    have h1 : sigs.isEmpty = false := by
      cases sigs
      · cases hs
      · rfl
    have h2 : (sigs.any fun s => s.length ≠ 96) = true := by
      simp only [List.any_eq_true, decide_eq_true_eq]
      exact ⟨s, hs, hlen⟩
    unfold ProductionBLS.aggregate_signatures
    rw [h1, h2]
    simp

/-- Witness for C7: a one-element list of a 96-byte signature aggregates
without error. -/
theorem aggregate_signatures_spec_witness :
    ([List.replicate 96 0] : List Bytes) ≠ [] ∧
    (∀ s ∈ ([List.replicate 96 0] : List Bytes), s.length = 96) ∧
    ProductionBLS.aggregate_signatures (fun _ => []) [List.replicate 96 0] =
      .ok ((fun _ => ([] : Bytes)) [List.replicate 96 0]) :=
  ⟨by decide, by decide,
   (aggregate_signatures_spec (fun _ => []) [List.replicate 96 0]).2.2
     (by decide) (by decide)⟩

/-- C8: `aggregate_signatures` is order-independent on every non-empty
list of canonical-length signatures: permuting the input yields a
byte-identical aggregate.  The external `bls_pop.Aggregate` is the
spec-modelled sum of decoded curve points in a commutative monoid, so the
permuted sums — and hence the encoded outputs — agree. -/
theorem aggregate_signatures_perm {P : Type} [AddCommMonoid P]
    (decode : Bytes → P) (encode : P → Bytes) (sigs sigs' : List Bytes)
    (hperm : sigs.Perm sigs') (hne : sigs ≠ []) (hlen : ∀ s ∈ sigs, s.length = 96) :
    ProductionBLS.aggregate_signatures (ProductionBLS.aggregateCore decode encode) sigs =
      ProductionBLS.aggregate_signatures (ProductionBLS.aggregateCore decode encode) sigs' := by
  have hne' : sigs' ≠ [] := by
    intro h
    exact hne (by rw [h] at hperm; exact hperm.eq_nil)
  have hlen' : ∀ s ∈ sigs', s.length = 96 := fun s hs => hlen s (hperm.mem_iff.mpr hs)
  rw [ProductionBLS.aggregate_signatures_ok _ sigs hne hlen,
      ProductionBLS.aggregate_signatures_ok _ sigs' hne' hlen']
  unfold ProductionBLS.aggregateCore
  rw [(hperm.map decode).sum_eq]

/-- Witness for C8: swapping a two-element signature list leaves the
aggregate unchanged. -/
theorem aggregate_signatures_perm_witness :
    (([List.replicate 96 0, List.replicate 96 1] : List Bytes)).Perm
      [List.replicate 96 1, List.replicate 96 0] ∧
    ([List.replicate 96 0, List.replicate 96 1] : List Bytes) ≠ [] ∧
    (∀ s ∈ ([List.replicate 96 0, List.replicate 96 1] : List Bytes), s.length = 96) ∧
    ProductionBLS.aggregate_signatures
        (ProductionBLS.aggregateCore (fun b => b.sum) (fun n => [n]))
        [List.replicate 96 0, List.replicate 96 1] =
      ProductionBLS.aggregate_signatures
        (ProductionBLS.aggregateCore (fun b => b.sum) (fun n => [n]))
        [List.replicate 96 1, List.replicate 96 0] :=
  ⟨List.Perm.swap _ _ _, by decide, by decide,
   aggregate_signatures_perm (fun b => b.sum) (fun n => [n]) _ _
     (List.Perm.swap _ _ _) (by decide) (by decide)⟩

/-- C9: `batch_verify` verifies each signature independently and reports
the list length as the total, `N - k` valid and `k` invalid where `k` is
the number of failing signatures, and as invalid indices exactly the
positions of the failing signatures in ascending order.  Stated for every
underlying verification predicate. -/
theorem batch_verify_spec (V : BLSSignature → Bool) (sigs : List BLSSignature) :
    (ProductionBLS.batch_verify V sigs).total_signatures = sigs.length ∧
    (ProductionBLS.batch_verify V sigs).valid_signatures
      = sigs.length - ((sigs.filter fun s => !V s).length) ∧
    (ProductionBLS.batch_verify V sigs).invalid_signatures
      = (sigs.filter fun s => !V s).length ∧
    (ProductionBLS.batch_verify V sigs).invalid_indices
      = ((sigs.enum.filter fun p => !V p.2).map Prod.fst) := by
  unfold ProductionBLS.batch_verify
  rw [ProductionBLS.batchLoop_spec]
  refine ⟨rfl, ?_, ?_, by simp [List.enum]⟩
  · show 0 + ((sigs.enum.filter fun p => V p.2).length) = _
    rw [List.enum, enumFrom_filter_pos_length]
    have := filter_length_partition (fun s => V s) sigs
    omega
  · show 0 + ((sigs.enum.filter fun p => !V p.2).length) = _
    rw [List.enum, enumFrom_filter_not_length]
    omega

/-- A header identical to `tEmpty` except that its nonce is 1: the state
a header reaches once puzzle solving has started mutating the nonce. -/
def tNonce1 : Triad := ⟨[], 0, 0, 1, [], 0, [], [], [], [], []⟩

/-- C3 counterexample: on the concrete bound header `tNonce1`, whose
current nonce is 1, `get_puzzle_challenge()` does **not** return the
header's hash computed with nonce fixed at 0 — the source hashes the
header at its current nonce, and the two digests differ. -/
theorem get_puzzle_challenge_ne_nonce0 :
    PoF.get_puzzle_challenge tNonce1 ≠ Triad.header_hash { tNonce1 with nonce := 0 } := by
  decide

/-- C3 (amended): `get_puzzle_challenge()` hashes the header at its
current nonce; when the header's nonce is 0 — its value at construction,
before any solving mutates it — this equals the header's hash computed
with nonce fixed at 0. -/
theorem get_puzzle_challenge_eq_nonce0 (t : Triad) (h : t.nonce = 0) :
    PoF.get_puzzle_challenge t = Triad.header_hash { t with nonce := 0 } := by
  unfold PoF.get_puzzle_challenge
  rw [Triad.set_nonce_self t h]

/-- Witness for the amended C3 at the freshly constructed header. -/
theorem get_puzzle_challenge_eq_nonce0_witness :
    tEmpty.nonce = 0 ∧
    PoF.get_puzzle_challenge tEmpty = Triad.header_hash { tEmpty with nonce := 0 } :=
  ⟨rfl, get_puzzle_challenge_eq_nonce0 tEmpty rfl⟩

/-- The VDF output `create_puzzle` produces on the nonce-1 header. -/
def outC1 : Bytes := (VDF.compute (PoF.get_puzzle_challenge tNonce1) 1).1

/-- C1 counterexample: on the concrete bound header `tNonce1` (current
nonce 1) with `vdf_difficulty = 1`, `create_puzzle()` yields
`(outC1, outC1)` and `solve_puzzle` returns nonce 0, yet setting the
nonce to 0 and calling `verify_solution` returns **false**: the challenge
was derived at nonce 1 but verification rederives it at nonce 0, so the
VDF check rejects. -/
theorem pof_claim1_counterexample :
    PoF.create_puzzle tNonce1 1 = .ok (outC1, outC1) ∧
    PoF.solve_puzzle tNonce1 outC1 1 = some 0 ∧
    (PoF.verify_solution { tNonce1 with nonce := 0 } 1 outC1 outC1).1 = false := by
  refine ⟨rfl, by decide, by decide⟩

/-- C1 (amended): for a bound header whose nonce is 0 when the puzzle is
created — the state in which `create_puzzle` derives the challenge — if
`create_puzzle` returns `(out, pf)` (which requires `vdf_difficulty ≥ 1`)
and `solve_puzzle(header, out)` returns nonce `n`, then setting
`header.nonce = n` and calling
`verify_solution(header, vdf_difficulty, out, pf)` returns true. -/
theorem pof_solve_then_verify (t : Triad) (d fuel n : Nat) (out pf : Bytes)
    (h0 : t.nonce = 0)
    (hc : PoF.create_puzzle t d = .ok (out, pf))
    (hs : PoF.solve_puzzle t out fuel = some n) :
    (PoF.verify_solution { t with nonce := n } d out pf).1 = true := by
  unfold PoF.create_puzzle at hc
  split at hc
  · simp at hc
  · simp only [Except.ok.injEq] at hc
    unfold VDF.compute at hc
    rw [Prod.mk.injEq] at hc
    obtain ⟨ho, hp⟩ := hc
    subst ho
    subst hp
    have hpow := PoF.solveGo_sound t (hashChain d (PoF.get_puzzle_challenge t)) fuel 0 n hs
    have hchal : VDF.verify
        (Triad.header_hash ({ { t with nonce := n } with nonce := 0 } : Triad)) d
        (hashChain d (PoF.get_puzzle_challenge t))
        (hashChain d (PoF.get_puzzle_challenge t)) = true := by
      have e : ({ { t with nonce := n } with nonce := 0 } : Triad) = t := by
        show ({ t with nonce := 0 } : Triad) = t
        exact Triad.set_nonce_self t h0
      rw [e]
      simp [VDF.verify, PoF.get_puzzle_challenge, Triad.header_hash]
    exact verify_solution_true { t with nonce := n } d _ _ hchal hpow

/-- Witness for the amended C1: the default header (nonce 0,
difficulty 0) with `vdf_difficulty = 1` solves at nonce 0 and verifies. -/
theorem pof_solve_then_verify_witness :
    tEmpty.nonce = 0 ∧
    PoF.create_puzzle tEmpty 1 =
      .ok ((VDF.compute (PoF.get_puzzle_challenge tEmpty) 1).1,
           (VDF.compute (PoF.get_puzzle_challenge tEmpty) 1).2) ∧
    PoF.solve_puzzle tEmpty (VDF.compute (PoF.get_puzzle_challenge tEmpty) 1).1 1 = some 0 ∧
    (PoF.verify_solution { tEmpty with nonce := 0 } 1
        (VDF.compute (PoF.get_puzzle_challenge tEmpty) 1).1
        (VDF.compute (PoF.get_puzzle_challenge tEmpty) 1).2).1 = true :=
  ⟨rfl, rfl, by decide,
   pof_solve_then_verify tEmpty 1 1 0 _ _ rfl rfl (by decide)⟩

end SeirChain
